import Mathlib

/-!
Shallow embedding of the show-vessel globe visualization core:
the geo projection and spherical tessellator (src/utils/fixCountryMesh.ts),
the vessel kinematic tick and report handling (ShipMarkers), the route
interpolator, and the camera transition controller, together with theorems
about their behaviour.  Real-number ("exact float") semantics: JavaScript
numbers are modelled as real numbers, `x || d` as `if x = 0 then d else x`.
-/

set_option maxHeartbeats 1000000

noncomputable section
open Classical

/-- jsOr models the JavaScript expression `a || b` on numbers (NaN aside):
the result is `b` when `a` is zero (falsy) and `a` otherwise. -/
def jsOr (a b : ℝ) : ℝ := if a = 0 then b else a

/-- numberEpsilon models the JavaScript constant `Number.EPSILON` = 2^-52. -/
def numberEpsilon : ℝ := 1 / 2 ^ 52

/-- Vec3 models THREE.Vector3: a triple of (real-modelled) numbers. -/
@[ext]
structure Vec3 where
  x : ℝ
  y : ℝ
  z : ℝ

namespace Vec3

/-- lengthSq models THREE.Vector3.lengthSq. -/
def lengthSq (v : Vec3) : ℝ := v.x * v.x + v.y * v.y + v.z * v.z

/-- length models THREE.Vector3.length. -/
def length (v : Vec3) : ℝ := Real.sqrt (lengthSq v)

/-- sub models THREE.Vector3.subVectors. -/
def sub (a b : Vec3) : Vec3 := ⟨a.x - b.x, a.y - b.y, a.z - b.z⟩

/-- add models THREE.Vector3.addVectors. -/
def add (a b : Vec3) : Vec3 := ⟨a.x + b.x, a.y + b.y, a.z + b.z⟩

/-- multiplyScalar models THREE.Vector3.multiplyScalar. -/
def multiplyScalar (v : Vec3) (s : ℝ) : Vec3 := ⟨v.x * s, v.y * s, v.z * s⟩

/-- dot models THREE.Vector3.dot. -/
def dot (a b : Vec3) : ℝ := a.x * b.x + a.y * b.y + a.z * b.z

/-- cross models THREE.Vector3.crossVectors. -/
def cross (a b : Vec3) : Vec3 :=
  ⟨a.y * b.z - a.z * b.y, a.z * b.x - a.x * b.z, a.x * b.y - a.y * b.x⟩

/-- distanceTo models THREE.Vector3.distanceTo. -/
def distanceTo (a b : Vec3) : ℝ :=
  Real.sqrt ((a.x - b.x) * (a.x - b.x) + (a.y - b.y) * (a.y - b.y) +
    (a.z - b.z) * (a.z - b.z))

/-- normalize models THREE.Vector3.normalize, which divides by
`this.length() || 1`, so the zero vector stays the zero vector. -/
def normalize (v : Vec3) : Vec3 := v.multiplyScalar (1 / jsOr v.length 1)

/-- lerpVectors models THREE.Vector3.lerpVectors. -/
def lerpVectors (v1 v2 : Vec3) (alpha : ℝ) : Vec3 :=
  ⟨v1.x + (v2.x - v1.x) * alpha, v1.y + (v2.y - v1.y) * alpha,
    v1.z + (v2.z - v1.z) * alpha⟩

end Vec3

/-- Quat models THREE.Quaternion. -/
@[ext]
structure Quat where
  x : ℝ
  y : ℝ
  z : ℝ
  w : ℝ

namespace Quat

/-- qlength models THREE.Quaternion.length. -/
def qlength (q : Quat) : ℝ :=
  Real.sqrt (q.x * q.x + q.y * q.y + q.z * q.z + q.w * q.w)

/-- normalize models THREE.Quaternion.normalize: the zero quaternion maps to
the identity, anything else is divided by its length. -/
def normalize (q : Quat) : Quat :=
  let l := q.qlength
  if l = 0 then ⟨0, 0, 0, 1⟩ else ⟨q.x * (1 / l), q.y * (1 / l), q.z * (1 / l), q.w * (1 / l)⟩

/-- setFromUnitVectors models THREE.Quaternion.setFromUnitVectors. -/
def setFromUnitVectors (vFrom vTo : Vec3) : Quat :=
  let r := vFrom.dot vTo + 1
  let q : Quat :=
    if r < numberEpsilon then
      if |vFrom.x| > |vFrom.z| then ⟨-vFrom.y, vFrom.x, 0, 0⟩
      else ⟨0, -vFrom.z, vFrom.y, 0⟩
    else
      ⟨vFrom.y * vTo.z - vFrom.z * vTo.y, vFrom.z * vTo.x - vFrom.x * vTo.z,
        vFrom.x * vTo.y - vFrom.y * vTo.x, r⟩
  q.normalize

end Quat

/-- applyQuaternion models THREE.Vector3.applyQuaternion
(`t = 2 cross(q, v); v + q.w t + cross(q, t)`). -/
def Vec3.applyQuaternion (v : Vec3) (q : Quat) : Vec3 :=
  let tx := 2 * (q.y * v.z - q.z * v.y)
  let ty := 2 * (q.z * v.x - q.x * v.z)
  let tz := 2 * (q.x * v.y - q.y * v.x)
  ⟨v.x + q.w * tx + q.y * tz - q.z * ty,
   v.y + q.w * ty + q.z * tx - q.x * tz,
   v.z + q.w * tz + q.x * ty - q.y * tx⟩

/-- jsAtan2 models JavaScript Math.atan2 on real inputs. -/
def jsAtan2 (y x : ℝ) : ℝ :=
  if 0 < x then Real.arctan (y / x)
  else if x < 0 then
    (if 0 ≤ y then Real.arctan (y / x) + Real.pi else Real.arctan (y / x) - Real.pi)
  else (if 0 < y then Real.pi / 2 else if y < 0 then -(Real.pi / 2) else 0)

/-- slerp models THREE.Quaternion.slerp(qb, t) called on a copy of `qa`
(the exact early-outs at t = 0 and t = 1 are in the source). -/
def Quat.slerp (qa qb : Quat) (t : ℝ) : Quat :=
  if t = 0 then qa
  else if t = 1 then qb
  else
    let cosHalfTheta := qa.w * qb.w + qa.x * qb.x + qa.y * qb.y + qa.z * qb.z
    let qb' : Quat := if cosHalfTheta < 0 then ⟨-qb.x, -qb.y, -qb.z, -qb.w⟩ else qb
    let c := if cosHalfTheta < 0 then -cosHalfTheta else cosHalfTheta
    if 1 ≤ c then qa
    else
      let sqrSinHalfTheta := 1 - c * c
      if sqrSinHalfTheta ≤ numberEpsilon then
        let s := 1 - t
        Quat.normalize ⟨s * qa.x + t * qb'.x, s * qa.y + t * qb'.y,
          s * qa.z + t * qb'.z, s * qa.w + t * qb'.w⟩
      else
        let sinHalfTheta := Real.sqrt sqrSinHalfTheta
        let halfTheta := jsAtan2 sinHalfTheta c
        let ratioA := Real.sin ((1 - t) * halfTheta) / sinHalfTheta
        let ratioB := Real.sin (t * halfTheta) / sinHalfTheta
        ⟨qa.x * ratioA + qb'.x * ratioB, qa.y * ratioA + qb'.y * ratioB,
          qa.z * ratioA + qb'.z * ratioB, qa.w * ratioA + qb'.w * ratioB⟩

/-- slerpQuaternions models THREE.Quaternion.slerpQuaternions(qa, qb, t). -/
def Quat.slerpQuaternions (qa qb : Quat) (t : ℝ) : Quat := Quat.slerp qa qb t

/-- Mat3 models the rotation part (m11..m33) of a THREE.Matrix4. -/
structure Mat3 where
  m11 : ℝ
  m12 : ℝ
  m13 : ℝ
  m21 : ℝ
  m22 : ℝ
  m23 : ℝ
  m31 : ℝ
  m32 : ℝ
  m33 : ℝ

/-- makeBasis models THREE.Matrix4.makeBasis(xAxis, yAxis, zAxis):
the three axes become the columns of the matrix. -/
def makeBasis (xAxis yAxis zAxis : Vec3) : Mat3 :=
  ⟨xAxis.x, yAxis.x, zAxis.x, xAxis.y, yAxis.y, zAxis.y, xAxis.z, yAxis.z, zAxis.z⟩

/-- setFromRotationMatrix models THREE.Quaternion.setFromRotationMatrix. -/
def Quat.setFromRotationMatrix (m : Mat3) : Quat :=
  let trace := m.m11 + m.m22 + m.m33
  if 0 < trace then
    let s := 0.5 / Real.sqrt (trace + 1)
    ⟨(m.m32 - m.m23) * s, (m.m13 - m.m31) * s, (m.m21 - m.m12) * s, 0.25 / s⟩
  else if m.m11 > m.m22 ∧ m.m11 > m.m33 then
    let s := 2 * Real.sqrt (1 + m.m11 - m.m22 - m.m33)
    ⟨0.25 * s, (m.m12 + m.m21) / s, (m.m13 + m.m31) / s, (m.m32 - m.m23) / s⟩
  else if m.m22 > m.m33 then
    let s := 2 * Real.sqrt (1 + m.m22 - m.m11 - m.m33)
    ⟨(m.m12 + m.m21) / s, 0.25 * s, (m.m23 + m.m32) / s, (m.m13 - m.m31) / s⟩
  else
    let s := 2 * Real.sqrt (1 + m.m33 - m.m11 - m.m22)
    ⟨(m.m13 + m.m31) / s, (m.m23 + m.m32) / s, 0.25 * s, (m.m21 - m.m12) / s⟩

/-- latLonToVector3 models the geo projection from src/utils/fixCountryMesh.ts
(the same formula as the shared utils/geo projection, spec section 4.1). -/
def latLonToVector3 (lat lon radius : ℝ) : Vec3 :=
  let phi := (90 - lat) * (Real.pi / 180)
  let theta := (lon + 180) * (Real.pi / 180)
  ⟨-radius * Real.sin phi * Real.cos theta,
    radius * Real.cos phi,
    radius * Real.sin phi * Real.sin theta⟩

/-- Waypoint models the route waypoint record {latitude, longitude}. -/
structure Waypoint where
  latitude : ℝ
  longitude : ℝ

/-- wpAt models the JavaScript array access `route[i]` at the in-range
indices the interpolator uses. -/
def wpAt (route : List Waypoint) (i : ℤ) : Waypoint :=
  route.getD i.toNat ⟨0, 0⟩

/-- interpolateAlongRoute models interpolateAlongRoute from ShipMarkers:
spherical interpolation along the selected route via quaternion slerp. -/
def interpolateAlongRoute (route : List Waypoint) (progress radius : ℝ) : Vec3 :=
  if route.length < 2 then ⟨0, 0, 0⟩
  else
    let totalSegments : ℕ := route.length - 1
    let segmentProgress : ℝ := progress * totalSegments
    let currentSegment : ℤ := ⌊segmentProgress⌋
    let segmentT : ℝ := segmentProgress - currentSegment
    if (totalSegments : ℤ) ≤ currentSegment then
      let lastWaypoint := wpAt route ((route.length : ℤ) - 1)
      latLonToVector3 lastWaypoint.latitude lastWaypoint.longitude radius
    else
      let startWaypoint := wpAt route currentSegment
      let endWaypoint := wpAt route (currentSegment + 1)
      let startPos := latLonToVector3 startWaypoint.latitude startWaypoint.longitude radius
      let endPos := latLonToVector3 endWaypoint.latitude endWaypoint.longitude radius
      let quaternionStart := Quat.setFromUnitVectors ⟨0, 0, 1⟩ startPos.normalize
      let quaternionEnd := Quat.setFromUnitVectors ⟨0, 0, 1⟩ endPos.normalize
      let interpolatedQuaternion := Quat.slerpQuaternions quaternionStart quaternionEnd segmentT
      Vec3.applyQuaternion ⟨0, 0, radius⟩ interpolatedQuaternion

/-- knotsToUnitsPerSecond models the speed scale from ShipMarkers. -/
def knotsToUnitsPerSecond (knots : ℝ) : ℝ := knots * 0.01 / 3600

/-- calculateDistance models calculateDistance from ShipMarkers
(THREE.Vector3.distanceTo). -/
def calculateDistance (pos1 pos2 : Vec3) : ℝ := pos1.distanceTo pos2

/-- shipRadius models the module constant `radius = 2.02` in ShipMarkers. -/
def shipRadius : ℝ := 2.02

/-- Ship models the live vessel report record. -/
structure Ship where
  id : String
  lat : ℝ
  lon : ℝ
  heading : ℝ
  speed : Option ℝ
  timestamp : Option ℝ

/-- ShipMesh models the per-vessel kinematic state record in ShipMarkers. -/
@[ext]
structure ShipMesh where
  id : String
  currentPosition : Vec3
  targetPosition : Vec3
  previousPosition : Vec3
  quaternion : Quat
  heading : ℝ
  speed : ℝ
  lastUpdateTime : ℝ
  interpolationProgress : ℝ
  isMoving : Bool
  route : List Waypoint
  routeProgress : ℝ
  currentRouteSegment : ℕ

/-- createShip models the `else` branch of updateShipMeshes: the state
created on the first report for a vessel id. -/
def createShip (ship : Ship) (currentTime : ℝ) : ShipMesh :=
  let pos := latLonToVector3 ship.lat ship.lon shipRadius
  let up : Vec3 := ⟨0, -1, 0⟩
  let dir := pos.normalize
  let quaternion := Quat.setFromUnitVectors up dir
  { id := ship.id
    currentPosition := pos
    targetPosition := pos
    previousPosition := pos
    quaternion := quaternion
    heading := ship.heading
    speed := ship.speed.getD 0
    lastUpdateTime := currentTime
    interpolationProgress := 1
    isMoving := false
    route := []
    routeProgress := 0
    currentRouteSegment := 0 }

/-- applyReport models the `existingShip` branch of updateShipMeshes: a new
report applied to an already-tracked vessel. -/
def applyReport (existingShip : ShipMesh) (ship : Ship) (currentTime : ℝ) : ShipMesh :=
  let newTargetPos := latLonToVector3 ship.lat ship.lon shipRadius
  let actualDistance := calculateDistance existingShip.currentPosition newTargetPos
  let isSignificantMovement := actualDistance > 0.001
  { existingShip with
    targetPosition := newTargetPos
    previousPosition := existingShip.currentPosition
    heading := ship.heading
    speed := ship.speed.getD 0
    lastUpdateTime := currentTime
    interpolationProgress := 0
    isMoving := decide isSignificantMovement && decide (ship.speed.getD 0 > 0) }

/-- setRoute models the route-assignment effect in ShipMarkers: the selected
vessel's route is replaced and its route progress reset. -/
def setRoute (ship : ShipMesh) (route : List Waypoint) : ShipMesh :=
  { ship with route := route, routeProgress := 0, currentRouteSegment := 0 }

/-- shipTimeToTarget models the `timeToTarget` computed in the per-tick
useFrame update: `distance / (speed || 0.001)`. -/
def shipTimeToTarget (ship : ShipMesh) : ℝ :=
  let speed := knotsToUnitsPerSecond ship.speed
  let distance := calculateDistance ship.previousPosition ship.targetPosition
  distance / jsOr speed 0.001

/-- tickFrameQuat models the tangent-frame quaternion computed in the
per-tick useFrame body: up is the radial direction at the current position,
right = normalize(up x direction), forward = normalize(right x up). -/
def tickFrameQuat (ship : ShipMesh) : Quat :=
  let direction := (Vec3.sub ship.targetPosition ship.previousPosition).normalize
  let up := ship.currentPosition.normalize
  let right := (Vec3.cross up direction).normalize
  let forward := (Vec3.cross right up).normalize
  Quat.setFromRotationMatrix (makeBasis right up forward)

/-- tickOrientation models the orientation update of the per-tick useFrame
body: once progress exceeds 0.01 and the movement direction is non-zero, the
quaternion is set from the tangent-frame rotation matrix. -/
def tickOrientation (ship : ShipMesh) : ShipMesh :=
  if 0.01 < ship.interpolationProgress then
    if 0 < ((Vec3.sub ship.targetPosition ship.previousPosition).normalize).length then
      { ship with quaternion := tickFrameQuat ship }
    else ship
  else ship

/-- shipTick models one iteration of the per-vessel useFrame body in
ShipMarkers, advancing a vessel by the frame delta. -/
def shipTick (ship : ShipMesh) (delta : ℝ) : ShipMesh :=
  if ship.isMoving = true ∧ ship.interpolationProgress < 1 then
    let timeToTarget := shipTimeToTarget ship
    let newProgress := min 1 (ship.interpolationProgress + delta / timeToTarget)
    let moved :=
      if 1 < ship.route.length then
        { ship with
          interpolationProgress := newProgress
          currentPosition := interpolateAlongRoute ship.route ship.routeProgress shipRadius
          routeProgress := min 1 (ship.routeProgress + delta * 0.01) }
      else
        { ship with
          interpolationProgress := newProgress
          currentPosition := Vec3.lerpVectors ship.previousPosition ship.targetPosition newProgress }
    let oriented := tickOrientation moved
    if 1 ≤ oriented.interpolationProgress then
      { oriented with isMoving := false, currentPosition := oriented.targetPosition }
    else oriented
  else ship

/-- shipTickIter iterates the per-tick update n times at a fixed delta. -/
def shipTickIter (delta : ℝ) (n : ℕ) (ship : ShipMesh) : ShipMesh :=
  (fun s => shipTick s delta)^[n] ship

/-- Reachable holds of the vessel states produced by the component: creation
on a first report, later reports, route assignment, and frame ticks. -/
inductive Reachable : ShipMesh → Prop
  | create (ship : Ship) (t : ℝ) : Reachable (createShip ship t)
  | report {m : ShipMesh} (ship : Ship) (t : ℝ) :
      Reachable m → Reachable (applyReport m ship t)
  | assignRoute {m : ShipMesh} (route : List Waypoint) :
      0 < route.length → Reachable m → Reachable (setRoute m route)
  | tick {m : ShipMesh} (delta : ℝ) :
      0 ≤ delta → Reachable m → Reachable (shipTick m delta)

/-- cexReport0 is a first report pinning a vessel at lat 0, lon 0. -/
def cexReport0 : Ship := ⟨"D", 0, 0, 0, some 10, none⟩

/-- cexReport1 is a later report moving the same vessel to lat 0, lon 180. -/
def cexReport1 : Ship := ⟨"D", 0, 180, 0, some 10, none⟩

/-- cexRoute is a two-waypoint route whose first waypoint is the north pole. -/
def cexRoute : List Waypoint := [⟨90, 0⟩, ⟨0, 0⟩]

/-- cexShip is the vessel state reached by a create, a movement report, and
a route assignment: moving, progress 0, with a two-waypoint route. -/
def cexShip : ShipMesh :=
  setRoute (applyReport (createShip cexReport0 0) cexReport1 1) cexRoute

/-- CameraTransition models the camera transition ref record in ShipMarkers. -/
structure CameraTransition where
  progress : ℝ
  startPos : Vec3
  targetPos : Vec3
  isAnimating : Bool

/-- CameraState bundles the camera position with the (optional) in-flight
transition record. -/
structure CameraState where
  position : Vec3
  transition : Option CameraTransition

/-- cameraTick models one iteration of the camera-transition useFrame body:
progress += 0.02, lerp the position, and on progress ≥ 1 snap to the target,
stop animating and drop the transition record. -/
def cameraTick (c : CameraState) : CameraState :=
  match c.transition with
  | none => c
  | some transition =>
    if transition.isAnimating = true then
      let newProgress := transition.progress + 0.02
      let newPosition :=
        Vec3.lerpVectors transition.startPos transition.targetPos newProgress
      if 1 ≤ newProgress then
        { position := transition.targetPos, transition := none }
      else
        { position := newPosition,
          transition := some { transition with progress := newProgress } }
    else c

/-- baryBlend models the barycentric blend computed for grid point (i, j) in
tessellateSphericalTriangle: `u = i/n`, `v = j/n`, `w = 1 - u - v`, and the
point `w*v1 + u*v2 + v*v3` accumulated with addScaledVector. -/
def baryBlend (v1 v2 v3 : Vec3) (n i j : ℕ) : Vec3 :=
  let u : ℝ := (i : ℝ) / (n : ℝ)
  let v : ℝ := (j : ℝ) / (n : ℝ)
  let w : ℝ := 1 - u - v
  ⟨v1.x * w + v2.x * u + v3.x * v,
   v1.y * w + v2.y * u + v3.y * v,
   v1.z * w + v2.z * u + v3.z * v⟩

/-- gridVertex models `vertices[i][j]` in tessellateSphericalTriangle: the
barycentric blend re-normalized and rescaled to the radius. -/
def gridVertex (v1 v2 v3 : Vec3) (radius : ℝ) (n i j : ℕ) : Vec3 :=
  ((baryBlend v1 v2 v3 n i j).normalize).multiplyScalar radius

/-- tessVertices models the sequence of vertices emitted by the
triangle-generation loops of tessellateSphericalTriangle, in order: the
lower triangle (a, b, c) for each grid cell, then the upper triangle
(d, e, f) when the cell is not on the hypotenuse boundary. -/
def tessVertices (v1 v2 v3 : Vec3) (radius : ℝ) (subdivisions : ℕ) : List Vec3 :=
  (List.range subdivisions).flatMap fun i =>
    (List.range (subdivisions - i)).flatMap fun j =>
      [gridVertex v1 v2 v3 radius subdivisions i j,
       gridVertex v1 v2 v3 radius subdivisions (i + 1) j,
       gridVertex v1 v2 v3 radius subdivisions i (j + 1)] ++
      (if j < subdivisions - i - 1 then
        [gridVertex v1 v2 v3 radius subdivisions (i + 1) j,
         gridVertex v1 v2 v3 radius subdivisions (i + 1) (j + 1),
         gridVertex v1 v2 v3 radius subdivisions i (j + 1)]
      else [])

/-- tessellateSphericalTriangle models the flat positions array returned by
tessellateSphericalTriangle in src/utils/fixCountryMesh.ts. -/
def tessellateSphericalTriangle (v1 v2 v3 : Vec3) (radius : ℝ)
    (subdivisions : ℕ) : List ℝ :=
  (tessVertices v1 v2 v3 radius subdivisions).flatMap fun p => [p.x, p.y, p.z]

theorem lengthSq_latLonToVector3 (lat lon radius : ℝ) :
    (latLonToVector3 lat lon radius).lengthSq = radius ^ 2 := by
  simp only [latLonToVector3, Vec3.lengthSq]
  have hs := Real.sin_sq_add_cos_sq ((90 - lat) * (Real.pi / 180))
  have ht := Real.sin_sq_add_cos_sq ((lon + 180) * (Real.pi / 180))
  linear_combination (radius ^ 2 * Real.sin ((90 - lat) * (Real.pi / 180)) ^ 2) * ht +
    radius ^ 2 * hs

theorem length_latLonToVector3 (lat lon radius : ℝ) (hr : 0 ≤ radius) :
    (latLonToVector3 lat lon radius).length = radius := by
  unfold Vec3.length
  rw [show (latLonToVector3 lat lon radius).lengthSq = radius ^ 2 from
    lengthSq_latLonToVector3 lat lon radius]
  exact Real.sqrt_sq hr

theorem sqrt_eval {a b : ℝ} (hb : 0 ≤ b) (h : a = b ^ 2) : Real.sqrt a = b := by
  rw [h]; exact Real.sqrt_sq hb

theorem tickOrientation_spec (m : ShipMesh) :
    ∃ q : Quat, tickOrientation m = { m with quaternion := q } := by
  unfold tickOrientation
  split_ifs
  · exact ⟨_, rfl⟩
  · exact ⟨m.quaternion, rfl⟩
  · exact ⟨m.quaternion, rfl⟩

theorem shipTick_master (s : ShipMesh) (delta : ℝ) :
    ∃ (p rp : ℝ) (c : Vec3) (q : Quat) (b : Bool),
      shipTick s delta = { s with interpolationProgress := p,
                                  currentPosition := c,
                                  quaternion := q, isMoving := b,
                                  routeProgress := rp } := by
  by_cases hg : s.isMoving = true ∧ s.interpolationProgress < 1
  · unfold shipTick
    rw [if_pos hg]
    by_cases hr : 1 < s.route.length
    · simp only [if_pos hr]
      obtain ⟨q, hq⟩ := tickOrientation_spec
        { s with
          interpolationProgress :=
            min 1 (s.interpolationProgress + delta / shipTimeToTarget s)
          currentPosition := interpolateAlongRoute s.route s.routeProgress shipRadius
          routeProgress := min 1 (s.routeProgress + delta * 0.01) }
      rw [hq]
      split_ifs
      · exact ⟨_, _, _, _, _, rfl⟩
      · exact ⟨_, _, _, _, _, rfl⟩
    · simp only [if_neg hr]
      obtain ⟨q, hq⟩ := tickOrientation_spec
        { s with
          interpolationProgress :=
            min 1 (s.interpolationProgress + delta / shipTimeToTarget s)
          currentPosition := Vec3.lerpVectors s.previousPosition s.targetPosition
            (min 1 (s.interpolationProgress + delta / shipTimeToTarget s)) }
      rw [hq]
      split_ifs
      · exact ⟨_, _, _, _, _, rfl⟩
      · exact ⟨_, _, _, _, _, rfl⟩
  · refine ⟨s.interpolationProgress, s.routeProgress, s.currentPosition, s.quaternion,
      s.isMoving, ?_⟩
    simp [shipTick, hg]

theorem shipTick_progress (s : ShipMesh) (delta : ℝ) (h1 : s.isMoving = true)
    (h2 : s.interpolationProgress < 1) :
    (shipTick s delta).interpolationProgress =
      min 1 (s.interpolationProgress + delta / shipTimeToTarget s) := by
  unfold shipTick
  rw [if_pos ⟨h1, h2⟩]
  by_cases hr : 1 < s.route.length
  · simp only [if_pos hr]
    obtain ⟨q, hq⟩ := tickOrientation_spec
      { s with
        interpolationProgress :=
          min 1 (s.interpolationProgress + delta / shipTimeToTarget s)
        currentPosition := interpolateAlongRoute s.route s.routeProgress shipRadius
        routeProgress := min 1 (s.routeProgress + delta * 0.01) }
    rw [hq]
    split_ifs <;> rfl
  · simp only [if_neg hr]
    obtain ⟨q, hq⟩ := tickOrientation_spec
      { s with
        interpolationProgress :=
          min 1 (s.interpolationProgress + delta / shipTimeToTarget s)
        currentPosition := Vec3.lerpVectors s.previousPosition s.targetPosition
          (min 1 (s.interpolationProgress + delta / shipTimeToTarget s)) }
    rw [hq]
    split_ifs <;> rfl

/-- C5: the geo projection returns exactly the stated colatitude/azimuth
formula, and for non-negative radius the returned point's Euclidean norm
equals the radius; no validation or wrapping of lat/lon occurs (the formula
holds for all real inputs). -/
theorem claim_C5 (lat lon radius : ℝ) (hr : 0 ≤ radius) :
    latLonToVector3 lat lon radius =
      ⟨-radius * Real.sin ((90 - lat) * (Real.pi / 180)) *
          Real.cos ((lon + 180) * (Real.pi / 180)),
        radius * Real.cos ((90 - lat) * (Real.pi / 180)),
        radius * Real.sin ((90 - lat) * (Real.pi / 180)) *
          Real.sin ((lon + 180) * (Real.pi / 180))⟩ ∧
    (latLonToVector3 lat lon radius).length = radius :=
  ⟨rfl, length_latLonToVector3 lat lon radius hr⟩

/-- C5 witness: the projection theorem applied at lat 0, lon 0, radius 2. -/
theorem claim_C5_witness :
    latLonToVector3 0 0 2 =
      ⟨-2 * Real.sin ((90 - 0) * (Real.pi / 180)) *
          Real.cos ((0 + 180) * (Real.pi / 180)),
        2 * Real.cos ((90 - 0) * (Real.pi / 180)),
        2 * Real.sin ((90 - 0) * (Real.pi / 180)) *
          Real.sin ((0 + 180) * (Real.pi / 180))⟩ ∧
    (latLonToVector3 0 0 2).length = 2 :=
  claim_C5 0 0 2 (by norm_num)

/-- C10: the per-tick vessel update never changes the vessel's id,
previousPosition, targetPosition, heading, speed, lastUpdateTime, route or
currentRouteSegment, for every state and every delta. -/
theorem claim_C10 (s : ShipMesh) (delta : ℝ) :
    (shipTick s delta).id = s.id ∧
    (shipTick s delta).previousPosition = s.previousPosition ∧
    (shipTick s delta).targetPosition = s.targetPosition ∧
    (shipTick s delta).heading = s.heading ∧
    (shipTick s delta).speed = s.speed ∧
    (shipTick s delta).lastUpdateTime = s.lastUpdateTime ∧
    (shipTick s delta).route = s.route ∧
    (shipTick s delta).currentRouteSegment = s.currentRouteSegment := by
  obtain ⟨p, rp, c, q, b, h⟩ := shipTick_master s delta
  rw [h]
  exact ⟨rfl, rfl, rfl, rfl, rfl, rfl, rfl, rfl⟩

theorem applyReport_isMoving (s : ShipMesh) (r : Ship) (t : ℝ) :
    (applyReport s r t).isMoving = true ↔
      (r.speed.getD 0 > 0 ∧
        calculateDistance s.currentPosition
          (latLonToVector3 r.lat r.lon shipRadius) > 0.001) := by
  simp only [applyReport, Bool.and_eq_true, decide_eq_true_eq]
  tauto

/-- C3: a report applied to an already-tracked vessel sets isMoving to true
iff the reported speed is positive and the chord distance between the
current position and the newly projected target exceeds 0.001. -/
theorem claim_C3 (s : ShipMesh) (r : Ship) (t : ℝ) :
    (applyReport s r t).isMoving = true ↔
      (r.speed.getD 0 > 0 ∧
        calculateDistance s.currentPosition
          (latLonToVector3 r.lat r.lon shipRadius) > 0.001) := by
  simp only [applyReport, Bool.and_eq_true, decide_eq_true_eq]
  tauto

/-- C2 counterexample: a repeated report with an unchanged position, applied
to a ship created from that same report, leaves targetPosition unchanged yet
still resets interpolationProgress from 1 to 0. -/
theorem claim_C2_counterexample :
    latLonToVector3 0 0 shipRadius =
      (createShip ⟨"A", 0, 0, 90, some 5, none⟩ 0).targetPosition ∧
    (createShip ⟨"A", 0, 0, 90, some 5, none⟩ 0).interpolationProgress = 1 ∧
    (applyReport (createShip ⟨"A", 0, 0, 90, some 5, none⟩ 0)
      ⟨"A", 0, 0, 90, some 5, none⟩ 1).interpolationProgress = 0 ∧
    (applyReport (createShip ⟨"A", 0, 0, 90, some 5, none⟩ 0)
        ⟨"A", 0, 0, 90, some 5, none⟩ 1).interpolationProgress ≠
      (createShip ⟨"A", 0, 0, 90, some 5, none⟩ 0).interpolationProgress := by
  refine ⟨rfl, rfl, rfl, ?_⟩
  simp only [applyReport, createShip]
  norm_num

/-- C2 amended: every report applied to an already-tracked vessel resets
interpolationProgress to 0 unconditionally, whether or not the projected
target position changed. -/
theorem claim_C2_amended (s : ShipMesh) (r : Ship) (t : ℝ) :
    (applyReport s r t).interpolationProgress = 0 := rfl

/-- C1 counterexample: a vessel reporting 1 knot has speed rate
1/360000 < 0.001, and the tick divides the chord distance (here 5) by that
rate itself (giving 1800000), not by max(rate, 0.001) (which would give
5000): a strictly positive speed rate below epsilon is not raised to
epsilon. -/
theorem claim_C1_counterexample :
    shipTimeToTarget ⟨"B", ⟨0, 0, 0⟩, ⟨3, 4, 0⟩, ⟨0, 0, 0⟩, ⟨0, 0, 0, 1⟩,
        0, 1, 0, 0, true, [], 0, 0⟩ = 1800000 ∧
    shipTimeToTarget ⟨"B", ⟨0, 0, 0⟩, ⟨3, 4, 0⟩, ⟨0, 0, 0⟩, ⟨0, 0, 0, 1⟩,
        0, 1, 0, 0, true, [], 0, 0⟩ ≠
      calculateDistance (⟨0, 0, 0⟩ : Vec3) ⟨3, 4, 0⟩ /
        max (knotsToUnitsPerSecond 1) 0.001 := by
  have hd : calculateDistance (⟨0, 0, 0⟩ : Vec3) ⟨3, 4, 0⟩ = 5 := by
    simp only [calculateDistance, Vec3.distanceTo]
    exact sqrt_eval (by norm_num) (by norm_num)
  have hk : knotsToUnitsPerSecond 1 = 1 / 360000 := by
    unfold knotsToUnitsPerSecond; norm_num
  constructor
  · unfold shipTimeToTarget
    simp only [hd, hk]
    rw [jsOr, if_neg (by norm_num)]
    norm_num
  · unfold shipTimeToTarget
    simp only [hd, hk]
    rw [jsOr, if_neg (by norm_num)]
    rw [show max ((1 : ℝ) / 360000) 0.001 = 0.001 from max_eq_right (by norm_num)]
    norm_num

/-- C1 amended: per tick with isMoving and progress < 1, the speed rate is
knots * 0.01 / 3600, the chord distance is |targetPosition -
previousPosition|, and the divisor of the chord distance is the speed rate
itself when it is nonzero and epsilon = 0.001 only when the rate is exactly
zero (the JavaScript `speed || 0.001`); progress then advances by
delta / timeToTarget, clamped at 1. -/
theorem claim_C1_amended (s : ShipMesh) (delta : ℝ) (h1 : s.isMoving = true)
    (h2 : s.interpolationProgress < 1) :
    (∀ k : ℝ, knotsToUnitsPerSecond k = k * 0.01 / 3600) ∧
    calculateDistance s.previousPosition s.targetPosition =
      (Vec3.sub s.targetPosition s.previousPosition).length ∧
    shipTimeToTarget s =
      calculateDistance s.previousPosition s.targetPosition /
        (if knotsToUnitsPerSecond s.speed = 0 then 0.001
         else knotsToUnitsPerSecond s.speed) ∧
    (shipTick s delta).interpolationProgress =
      min 1 (s.interpolationProgress + delta / shipTimeToTarget s) := by
  refine ⟨fun k => rfl, ?_, rfl, shipTick_progress s delta h1 h2⟩
  simp only [calculateDistance, Vec3.distanceTo, Vec3.length, Vec3.lengthSq, Vec3.sub]
  congr 1
  ring

/-- C1 witness: the amended tick-timing theorem applied to a concrete moving
vessel at delta 1. -/
theorem claim_C1_witness :
    (∀ k : ℝ, knotsToUnitsPerSecond k = k * 0.01 / 3600) ∧
    calculateDistance (⟨0, 0, 0⟩ : Vec3) ⟨3, 4, 0⟩ =
      (Vec3.sub ⟨3, 4, 0⟩ ⟨0, 0, 0⟩).length ∧
    shipTimeToTarget ⟨"B", ⟨0, 0, 0⟩, ⟨3, 4, 0⟩, ⟨0, 0, 0⟩, ⟨0, 0, 0, 1⟩,
        0, 1, 0, 0, true, [], 0, 0⟩ =
      calculateDistance (⟨0, 0, 0⟩ : Vec3) ⟨3, 4, 0⟩ /
        (if knotsToUnitsPerSecond 1 = 0 then 0.001 else knotsToUnitsPerSecond 1) ∧
    (shipTick ⟨"B", ⟨0, 0, 0⟩, ⟨3, 4, 0⟩, ⟨0, 0, 0⟩, ⟨0, 0, 0, 1⟩,
        0, 1, 0, 0, true, [], 0, 0⟩ 1).interpolationProgress =
      min 1 (0 + 1 / shipTimeToTarget ⟨"B", ⟨0, 0, 0⟩, ⟨3, 4, 0⟩, ⟨0, 0, 0⟩,
        ⟨0, 0, 0, 1⟩, 0, 1, 0, 0, true, [], 0, 0⟩) :=
  claim_C1_amended ⟨"B", ⟨0, 0, 0⟩, ⟨3, 4, 0⟩, ⟨0, 0, 0⟩, ⟨0, 0, 0, 1⟩,
    0, 1, 0, 0, true, [], 0, 0⟩ 1 rfl (by norm_num)

theorem cameraTick_step_lt (t : CameraTransition) (P : Vec3)
    (h : t.isAnimating = true) (hlt : t.progress + 0.02 < 1) :
    cameraTick ⟨P, some t⟩ =
      ⟨Vec3.lerpVectors t.startPos t.targetPos (t.progress + 0.02),
        some { t with progress := t.progress + 0.02 }⟩ := by
  simp only [cameraTick, h, if_true]
  rw [if_neg (not_le.mpr hlt)]

theorem cameraTick_step_ge (t : CameraTransition) (P : Vec3)
    (h : t.isAnimating = true) (hge : 1 ≤ t.progress + 0.02) :
    cameraTick ⟨P, some t⟩ = ⟨t.targetPos, none⟩ := by
  simp only [cameraTick, h, if_true]
  rw [if_pos hge]

/-- cameraTickIter iterates the camera-transition frame update n times. -/
def cameraTickIter (n : ℕ) (c : CameraState) : CameraState :=
  cameraTick^[n] c

theorem cameraIter_inv (A B P : Vec3) :
    ∀ k : ℕ, 1 ≤ k → k ≤ 49 →
      cameraTickIter k ⟨P, some ⟨0, A, B, true⟩⟩ =
        ⟨Vec3.lerpVectors A B (0.02 * k), some ⟨0.02 * k, A, B, true⟩⟩ := by
  intro k
  induction k with
  | zero => omega
  | succ n ih =>
    intro _ hle
    rcases Nat.eq_zero_or_pos n with hn | hn
    · subst hn
      show cameraTick ⟨P, some ⟨0, A, B, true⟩⟩ = _
      rw [cameraTick_step_lt ⟨0, A, B, true⟩ P rfl (by norm_num)]
      norm_num
    · have hn49 : n ≤ 49 := by omega
      have hstep : cameraTickIter (n + 1) ⟨P, some ⟨0, A, B, true⟩⟩ =
          cameraTick (cameraTickIter n ⟨P, some ⟨0, A, B, true⟩⟩) := by
        unfold cameraTickIter
        rw [Function.iterate_succ_apply']
      rw [hstep, ih hn hn49]
      rw [cameraTick_step_lt ⟨0.02 * n, A, B, true⟩ _ rfl (by
        have : (n : ℝ) ≤ 48 := by exact_mod_cast (by omega : n ≤ 48)
        nlinarith)]
      have : (0.02 : ℝ) * n + 0.02 = 0.02 * (n + 1 : ℕ) := by push_cast; ring
      rw [this]

/-- C9: a camera transition started with progress 0 from A to B adds 0.02 to
progress each tick and lerps the position by the resulting progress (for the
first 49 ticks it is still animating with progress 0.02*k); on tick 50
progress reaches 1, the position is snapped exactly to B and the transition
record is discarded (isAnimating cleared and the ref nulled). -/
theorem claim_C9 (A B P : Vec3) (n : ℕ) (h1 : 1 ≤ n) (h2 : n ≤ 49) :
    cameraTickIter n ⟨P, some ⟨0, A, B, true⟩⟩ =
      ⟨Vec3.lerpVectors A B (0.02 * n), some ⟨0.02 * n, A, B, true⟩⟩ ∧
    cameraTickIter 50 ⟨P, some ⟨0, A, B, true⟩⟩ = ⟨B, none⟩ := by
  refine ⟨cameraIter_inv A B P n h1 h2, ?_⟩
  have hstep : cameraTickIter 50 ⟨P, some ⟨0, A, B, true⟩⟩ =
      cameraTick (cameraTickIter 49 ⟨P, some ⟨0, A, B, true⟩⟩) := by
    unfold cameraTickIter
    rw [show (50 : ℕ) = 49 + 1 from rfl, Function.iterate_succ_apply']
  rw [hstep, cameraIter_inv A B P 49 (by norm_num) (by norm_num)]
  rw [cameraTick_step_ge ⟨0.02 * (49 : ℕ), A, B, true⟩ _ rfl (by norm_num)]

/-- C9 witness: the camera-transition theorem applied at concrete endpoints
and tick count 1. -/
theorem claim_C9_witness :
    cameraTickIter 1 ⟨⟨5, 5, 5⟩, some ⟨0, ⟨1, 0, 0⟩, ⟨0, 1, 0⟩, true⟩⟩ =
      ⟨Vec3.lerpVectors ⟨1, 0, 0⟩ ⟨0, 1, 0⟩ (0.02 * (1 : ℕ)),
        some ⟨0.02 * (1 : ℕ), ⟨1, 0, 0⟩, ⟨0, 1, 0⟩, true⟩⟩ ∧
    cameraTickIter 50 ⟨⟨5, 5, 5⟩, some ⟨0, ⟨1, 0, 0⟩, ⟨0, 1, 0⟩, true⟩⟩ =
      ⟨⟨0, 1, 0⟩, none⟩ :=
  claim_C9 ⟨1, 0, 0⟩ ⟨0, 1, 0⟩ ⟨5, 5, 5⟩ 1 (by norm_num) (by norm_num)

theorem shipTick_not_active (s : ShipMesh) (delta : ℝ)
    (h : ¬(s.isMoving = true ∧ s.interpolationProgress < 1)) :
    shipTick s delta = s := by
  unfold shipTick
  rw [if_neg h]

theorem shipTimeToTarget_pos (s : ShipMesh)
    (hdist : 0 < calculateDistance s.previousPosition s.targetPosition)
    (hsp : 0 ≤ s.speed) : 0 < shipTimeToTarget s := by
  simp only [shipTimeToTarget, jsOr, knotsToUnitsPerSecond]
  split_ifs with h
  · positivity
  · have hrate : 0 < s.speed * 0.01 / 3600 :=
      lt_of_le_of_ne (by positivity) (Ne.symm h)
    exact div_pos hdist hrate

theorem shipTimeToTarget_congr (a b : ShipMesh)
    (hp : a.previousPosition = b.previousPosition)
    (ht : a.targetPosition = b.targetPosition) (hs : a.speed = b.speed) :
    shipTimeToTarget a = shipTimeToTarget b := by
  simp only [shipTimeToTarget]
  rw [hp, ht, hs]

theorem shipTick_complete (s : ShipMesh) (delta : ℝ) (h1 : s.isMoving = true)
    (h2 : s.interpolationProgress < 1)
    (hge : 1 ≤ min 1 (s.interpolationProgress + delta / shipTimeToTarget s)) :
    (shipTick s delta).isMoving = false ∧
    (shipTick s delta).currentPosition = s.targetPosition := by
  unfold shipTick
  rw [if_pos ⟨h1, h2⟩]
  by_cases hr : 1 < s.route.length
  · simp only [if_pos hr]
    obtain ⟨q, hq⟩ := tickOrientation_spec
      { s with
        interpolationProgress :=
          min 1 (s.interpolationProgress + delta / shipTimeToTarget s)
        currentPosition := interpolateAlongRoute s.route s.routeProgress shipRadius
        routeProgress := min 1 (s.routeProgress + delta * 0.01) }
    rw [hq]
    split_ifs with hc
    · exact ⟨rfl, rfl⟩
    · exact absurd hge hc
  · simp only [if_neg hr]
    obtain ⟨q, hq⟩ := tickOrientation_spec
      { s with
        interpolationProgress :=
          min 1 (s.interpolationProgress + delta / shipTimeToTarget s)
        currentPosition := Vec3.lerpVectors s.previousPosition s.targetPosition
          (min 1 (s.interpolationProgress + delta / shipTimeToTarget s)) }
    rw [hq]
    split_ifs with hc
    · exact ⟨rfl, rfl⟩
    · exact absurd hge hc

theorem shipTick_incomplete (s : ShipMesh) (delta : ℝ) (h1 : s.isMoving = true)
    (h2 : s.interpolationProgress < 1)
    (hlt : min 1 (s.interpolationProgress + delta / shipTimeToTarget s) < 1) :
    (shipTick s delta).isMoving = true := by
  unfold shipTick
  rw [if_pos ⟨h1, h2⟩]
  by_cases hr : 1 < s.route.length
  · simp only [if_pos hr]
    obtain ⟨q, hq⟩ := tickOrientation_spec
      { s with
        interpolationProgress :=
          min 1 (s.interpolationProgress + delta / shipTimeToTarget s)
        currentPosition := interpolateAlongRoute s.route s.routeProgress shipRadius
        routeProgress := min 1 (s.routeProgress + delta * 0.01) }
    rw [hq]
    split_ifs with hc
    · exact absurd hc (not_le.mpr hlt)
    · exact h1
  · simp only [if_neg hr]
    obtain ⟨q, hq⟩ := tickOrientation_spec
      { s with
        interpolationProgress :=
          min 1 (s.interpolationProgress + delta / shipTimeToTarget s)
        currentPosition := Vec3.lerpVectors s.previousPosition s.targetPosition
          (min 1 (s.interpolationProgress + delta / shipTimeToTarget s)) }
    rw [hq]
    split_ifs with hc
    · exact absurd hc (not_le.mpr hlt)
    · exact h1

theorem shipIter_inv (s : ShipMesh) (delta : ℝ) (h1 : s.isMoving = true)
    (h0 : 0 ≤ s.interpolationProgress) (h2 : s.interpolationProgress < 1)
    (hd : 0 < delta)
    (hdist : 0 < calculateDistance s.previousPosition s.targetPosition)
    (hsp : 0 ≤ s.speed) :
    ∀ n : ℕ,
      (shipTickIter delta n s).interpolationProgress =
        min 1 (s.interpolationProgress + n * (delta / shipTimeToTarget s)) ∧
      ((shipTickIter delta n s).isMoving = true ↔
        (shipTickIter delta n s).interpolationProgress < 1) ∧
      ((shipTickIter delta n s).interpolationProgress = 1 →
        (shipTickIter delta n s).currentPosition = s.targetPosition) ∧
      (shipTickIter delta n s).previousPosition = s.previousPosition ∧
      (shipTickIter delta n s).targetPosition = s.targetPosition ∧
      (shipTickIter delta n s).speed = s.speed := by
  have hT : 0 < shipTimeToTarget s := shipTimeToTarget_pos s hdist hsp
  have hdT : 0 < delta / shipTimeToTarget s := div_pos hd hT
  intro n
  induction n with
  | zero =>
    refine ⟨?_, ?_, ?_, rfl, rfl, rfl⟩
    · show s.interpolationProgress = _
      rw [Nat.cast_zero, zero_mul, add_zero, min_eq_right (le_of_lt h2)]
    · show s.isMoving = true ↔ s.interpolationProgress < 1
      exact ⟨fun _ => h2, fun _ => h1⟩
    · intro hp
      exact absurd (show s.interpolationProgress = 1 from hp) (ne_of_lt h2)
  | succ n ih =>
    obtain ⟨ihp, ihm, ihc, ihprev, ihtgt, ihsp⟩ := ih
    have hstep : shipTickIter delta (n + 1) s =
        shipTick (shipTickIter delta n s) delta := by
      unfold shipTickIter
      rw [Function.iterate_succ_apply']
    set m := shipTickIter delta n s with hm
    have hTm : shipTimeToTarget m = shipTimeToTarget s :=
      shipTimeToTarget_congr m s ihprev ihtgt ihsp
    by_cases hlt : m.interpolationProgress < 1
    · have hmov : m.isMoving = true := ihm.mpr hlt
      have hsum : s.interpolationProgress + n * (delta / shipTimeToTarget s) < 1 := by
        by_contra hge
        push_neg at hge
        rw [ihp, min_eq_left hge] at hlt
        exact absurd hlt (lt_irrefl 1)
      have hmp : m.interpolationProgress =
          s.interpolationProgress + n * (delta / shipTimeToTarget s) := by
        rw [ihp, min_eq_right (le_of_lt hsum)]
      have hnewp : min 1 (m.interpolationProgress + delta / shipTimeToTarget m) =
          min 1 (s.interpolationProgress + (n + 1 : ℕ) * (delta / shipTimeToTarget s)) := by
        rw [hTm, hmp]
        congr 1
        push_cast
        ring
      obtain ⟨p, rp, c, q, b, hmaster⟩ := shipTick_master m delta
      refine ⟨?_, ?_, ?_, ?_, ?_, ?_⟩
      · rw [hstep, shipTick_progress m delta hmov hlt, hnewp]
      · rw [hstep]
        constructor
        · intro hmvt
          by_contra hpge
          push_neg at hpge
          have hple : (shipTick m delta).interpolationProgress ≤ 1 := by
            rw [shipTick_progress m delta hmov hlt]
            exact min_le_left _ _
          have hp1 : (shipTick m delta).interpolationProgress = 1 :=
            le_antisymm hple hpge
          have hge1 : 1 ≤ min 1 (m.interpolationProgress + delta / shipTimeToTarget m) := by
            rw [← shipTick_progress m delta hmov hlt, hp1]
          have := (shipTick_complete m delta hmov hlt hge1).1
          rw [hmvt] at this
          simp at this
        · intro hplt
          have hlt1 : min 1 (m.interpolationProgress + delta / shipTimeToTarget m) < 1 := by
            rw [← shipTick_progress m delta hmov hlt]
            exact hplt
          exact shipTick_incomplete m delta hmov hlt hlt1
      · intro hp1
        rw [hstep] at hp1 ⊢
        have hge1 : 1 ≤ min 1 (m.interpolationProgress + delta / shipTimeToTarget m) := by
          rw [← shipTick_progress m delta hmov hlt, hp1]
        rw [(shipTick_complete m delta hmov hlt hge1).2]
        exact ihtgt
      · rw [hstep, hmaster]
        exact ihprev
      · rw [hstep, hmaster]
        exact ihtgt
      · rw [hstep, hmaster]
        exact ihsp
    · have hmov : ¬ m.isMoving = true := fun hmv => hlt (ihm.mp hmv)
      have hfix : shipTick m delta = m :=
        shipTick_not_active m delta (fun hc => hmov hc.1)
      have hple : m.interpolationProgress ≤ 1 := by
        rw [ihp]
        exact min_le_left _ _
      have hm1 : m.interpolationProgress = 1 :=
        le_antisymm hple (not_lt.mp hlt)
      have hsumge : 1 ≤ s.interpolationProgress + n * (delta / shipTimeToTarget s) := by
        by_contra hless
        push_neg at hless
        rw [ihp, min_eq_right (le_of_lt hless)] at hm1
        exact absurd hm1 (ne_of_lt hless)
      refine ⟨?_, ?_, ?_, ?_, ?_, ?_⟩
      · rw [hstep, hfix, hm1]
        have : 1 ≤ s.interpolationProgress + (n + 1 : ℕ) * (delta / shipTimeToTarget s) := by
          push_cast
          nlinarith
        rw [min_eq_left this]
      · rw [hstep, hfix]
        exact ihm
      · rw [hstep, hfix]
        exact ihc
      · rw [hstep, hfix]
        exact ihprev
      · rw [hstep, hfix]
        exact ihtgt
      · rw [hstep, hfix]
        exact ihsp

theorem lengthSq_nonneg (v : Vec3) : 0 ≤ v.lengthSq := by
  unfold Vec3.lengthSq
  nlinarith [mul_self_nonneg v.x, mul_self_nonneg v.y, mul_self_nonneg v.z]

theorem length_sq_eq (v : Vec3) : v.length ^ 2 = v.lengthSq :=
  Real.sq_sqrt (lengthSq_nonneg v)

theorem applyQuat_setFromUnitVectors (u : Vec3) (r : ℝ)
    (hu : u.lengthSq = 1) (hz : numberEpsilon ≤ 1 + u.z) :
    Vec3.applyQuaternion ⟨0, 0, r⟩ (Quat.setFromUnitVectors ⟨0, 0, 1⟩ u) =
      ⟨r * u.x, r * u.y, r * u.z⟩ := by
  simp only [Vec3.lengthSq] at hu
  have h1z : 0 < 1 + u.z := lt_of_lt_of_le (by norm_num [numberEpsilon]) hz
  simp only [Quat.setFromUnitVectors, Vec3.dot]
  rw [if_neg (not_lt.mpr (by
    simpa using (by linarith : numberEpsilon ≤ 0 * u.x + 0 * u.y + 1 * u.z + 1)))]
  simp only [Quat.normalize, Quat.qlength, zero_mul, one_mul, mul_zero, mul_one,
    zero_add, add_zero, sub_zero, zero_sub]
  set L := Real.sqrt (-u.y * -u.y + u.x * u.x + (u.z + 1) * (u.z + 1)) with hLdef
  have hargnn : (0 : ℝ) ≤ -u.y * -u.y + u.x * u.x + (u.z + 1) * (u.z + 1) := by
    nlinarith
  have hLpos : 0 < L := by
    rw [hLdef]
    apply Real.sqrt_pos.mpr
    nlinarith
  have key : L * L = 2 * (1 + u.z) := by
    rw [hLdef, Real.mul_self_sqrt hargnn]
    linear_combination hu
  rw [if_neg (ne_of_gt hLpos)]
  simp only [Vec3.applyQuaternion]
  ext
  · field_simp
    linear_combination (-(r * u.x)) * key
  · field_simp
    linear_combination (-(r * u.y)) * key
  · field_simp
    linear_combination (r * (1 - u.z)) * key + (-(2 * r)) * hu

theorem normalize_of_length (v : Vec3) (r : ℝ) (hv : v.length = r) (hr : 0 < r) :
    v.normalize = ⟨v.x / r, v.y / r, v.z / r⟩ := by
  simp only [Vec3.normalize, Vec3.multiplyScalar, jsOr]
  rw [hv, if_neg (ne_of_gt hr)]
  ext <;> (simp only []; ring)

theorem lengthSq_normalize_of_length (v : Vec3) (r : ℝ) (hv : v.length = r)
    (hr : 0 < r) : (v.normalize).lengthSq = 1 := by
  rw [normalize_of_length v r hv hr]
  have hsq : v.lengthSq = r ^ 2 := by
    rw [← length_sq_eq, hv]
  simp only [Vec3.lengthSq] at hsq ⊢
  field_simp
  linear_combination hsq

theorem smul_normalize_of_length (v : Vec3) (r : ℝ) (hv : v.length = r)
    (hr : 0 < r) :
    (⟨r * (v.normalize).x, r * (v.normalize).y, r * (v.normalize).z⟩ : Vec3) = v := by
  rw [normalize_of_length v r hv hr]
  ext <;> (simp only []; field_simp)

theorem tickOrientation_id (s : ShipMesh)
    (h : 0.01 < s.interpolationProgress →
      0 < ((Vec3.sub s.targetPosition s.previousPosition).normalize).length →
      s.quaternion = tickFrameQuat s) : tickOrientation s = s := by
  unfold tickOrientation
  split_ifs with h1 h2
  · rw [← h h1 h2]
  · rfl
  · rfl

/-- C7 amended: for a vessel without a route (at most one waypoint), a tick
with dt = 0 leaves all kinematic state unchanged, provided the state
satisfies the invariants the component maintains: progress at most 1,
currentPosition equal to the chord lerp of previous/target at the current
progress, and (when the orientation branch is active) a quaternion already
equal to the tangent-frame rotation; vessels following a route are excluded
because the dt = 0 tick recomputes currentPosition from routeProgress. -/
theorem claim_C7_amended (s : ShipMesh)
    (hroute : ¬ 1 < s.route.length)
    (hp1 : s.interpolationProgress ≤ 1)
    (hlerp : s.currentPosition =
      Vec3.lerpVectors s.previousPosition s.targetPosition s.interpolationProgress)
    (hquat : s.isMoving = true → s.interpolationProgress < 1 →
      0.01 < s.interpolationProgress →
      0 < ((Vec3.sub s.targetPosition s.previousPosition).normalize).length →
      s.quaternion = tickFrameQuat s) :
    shipTick s 0 = s := by
  by_cases hg : s.isMoving = true ∧ s.interpolationProgress < 1
  · obtain ⟨hmv, hlt⟩ := hg
    unfold shipTick
    rw [if_pos ⟨hmv, hlt⟩]
    simp only [if_neg hroute]
    have hnp : min 1 (s.interpolationProgress + 0 / shipTimeToTarget s) =
        s.interpolationProgress := by
      rw [zero_div, add_zero]
      exact min_eq_right hp1
    rw [hnp, ← hlerp]
    have hmoved : ({ s with
                      interpolationProgress := s.interpolationProgress,
                      currentPosition := s.currentPosition } : ShipMesh) = s := rfl
    rw [hmoved, tickOrientation_id s (fun hp hd => hquat hmv hlt hp hd),
      if_neg (not_le.mpr hlt)]
  · exact shipTick_not_active s 0 hg

/-- C7 witness: the dt = 0 theorem applied to a concrete idle vessel. -/
theorem claim_C7_witness :
    shipTick ⟨"E", ⟨0, 0, 0⟩, ⟨0, 0, 0⟩, ⟨0, 0, 0⟩, ⟨0, 0, 0, 1⟩,
      0, 0, 0, 1, false, [], 0, 0⟩ 0 =
      ⟨"E", ⟨0, 0, 0⟩, ⟨0, 0, 0⟩, ⟨0, 0, 0⟩, ⟨0, 0, 0, 1⟩,
        0, 0, 0, 1, false, [], 0, 0⟩ :=
  claim_C7_amended _ (by norm_num) (by norm_num)
    (by show (⟨0, 0, 0⟩ : Vec3) = Vec3.lerpVectors ⟨0, 0, 0⟩ ⟨0, 0, 0⟩ 1
        simp only [Vec3.lerpVectors]
        ext <;> (simp only []; ring))
    (by intro hmv
        exact absurd hmv (by norm_num))

theorem tickOrientation_of_small (m : ShipMesh)
    (h : ¬ 0.01 < m.interpolationProgress) : tickOrientation m = m := by
  unfold tickOrientation
  rw [if_neg h]

theorem slerpQuaternions_zero (qa qb : Quat) : Quat.slerpQuaternions qa qb 0 = qa := by
  unfold Quat.slerpQuaternions Quat.slerp
  rw [if_pos rfl]

theorem interpolateAlongRoute_zero (route : List Waypoint) (radius : ℝ)
    (h2 : 2 ≤ route.length) (hr : 0 < radius)
    (hz : numberEpsilon ≤ 1 +
      ((latLonToVector3 (wpAt route 0).latitude (wpAt route 0).longitude
        radius).normalize).z) :
    interpolateAlongRoute route 0 radius =
      latLonToVector3 (wpAt route 0).latitude (wpAt route 0).longitude radius := by
  have hlen : ¬ route.length < 2 := not_lt.mpr h2
  unfold interpolateAlongRoute
  rw [if_neg hlen]
  simp only [zero_mul, Int.floor_zero, Int.cast_zero, sub_zero]
  rw [if_neg (by omega : ¬ ((route.length - 1 : ℕ) : ℤ) ≤ 0)]
  rw [slerpQuaternions_zero]
  have hlv : (latLonToVector3 (wpAt route 0).latitude (wpAt route 0).longitude
      radius).length = radius :=
    length_latLonToVector3 _ _ _ (le_of_lt hr)
  rw [applyQuat_setFromUnitVectors _ radius
    (lengthSq_normalize_of_length _ radius hlv hr) hz]
  exact smul_normalize_of_length _ radius hlv hr

theorem interpolateAlongRoute_one (route : List Waypoint) (radius : ℝ)
    (h2 : 2 ≤ route.length) :
    interpolateAlongRoute route 1 radius =
      latLonToVector3 (wpAt route ((route.length : ℤ) - 1)).latitude
        (wpAt route ((route.length : ℤ) - 1)).longitude radius := by
  have hlen : ¬ route.length < 2 := not_lt.mpr h2
  unfold interpolateAlongRoute
  rw [if_neg hlen]
  simp only [one_mul, Int.floor_natCast]
  rw [if_pos (le_refl ((route.length - 1 : ℕ) : ℤ))]

theorem calcDist_0_340 : calculateDistance (⟨0, 0, 0⟩ : Vec3) ⟨3, 4, 0⟩ = 5 := by
  simp only [calculateDistance, Vec3.distanceTo]
  exact sqrt_eval (by norm_num) (by norm_num)

theorem proj_lat0_lon0 (r : ℝ) : latLonToVector3 0 0 r = ⟨r, 0, 0⟩ := by
  simp only [latLonToVector3]
  rw [show ((90 : ℝ) - 0) * (Real.pi / 180) = Real.pi / 2 by ring,
    show ((0 : ℝ) + 180) * (Real.pi / 180) = Real.pi by ring,
    Real.sin_pi_div_two, Real.cos_pi_div_two, Real.sin_pi, Real.cos_pi]
  ext <;> (simp only []; ring)

theorem proj_lat0_lon180 (r : ℝ) : latLonToVector3 0 180 r = ⟨-r, 0, 0⟩ := by
  simp only [latLonToVector3]
  rw [show ((90 : ℝ) - 0) * (Real.pi / 180) = Real.pi / 2 by ring,
    show ((180 : ℝ) + 180) * (Real.pi / 180) = 2 * Real.pi by ring,
    Real.sin_pi_div_two, Real.cos_pi_div_two, Real.sin_two_pi, Real.cos_two_pi]
  ext <;> (simp only []; ring)

theorem proj_lat90 (lon r : ℝ) : latLonToVector3 90 lon r = ⟨0, r, 0⟩ := by
  simp only [latLonToVector3]
  rw [show ((90 : ℝ) - 90) * (Real.pi / 180) = 0 by ring, Real.sin_zero, Real.cos_zero]
  ext <;> (simp only []; ring)


/-- C6: for a vessel in the Interpolating state (isMoving, progress in
[0, 1)) with a positive chord distance and non-negative reported speed,
across repeated ticks with fixed dt > 0 and no intervening report the
interpolation progress equals min(1, p0 + n*dt/timeToTarget) after n ticks
(hence is clamped at 1 and never decreases), reaches exactly 1 within
timeToTarget/dt ticks and stays there, and whenever it equals 1 the vessel
has isMoving = false and currentPosition snapped exactly to
targetPosition. -/
theorem claim_C6 (s : ShipMesh) (delta : ℝ) (h1 : s.isMoving = true)
    (h0 : 0 ≤ s.interpolationProgress) (h2 : s.interpolationProgress < 1)
    (hd : 0 < delta)
    (hdist : 0 < calculateDistance s.previousPosition s.targetPosition)
    (hsp : 0 ≤ s.speed) :
    (∀ n : ℕ, (shipTickIter delta n s).interpolationProgress =
        min 1 (s.interpolationProgress + n * (delta / shipTimeToTarget s))) ∧
    (∀ n : ℕ, (shipTickIter delta n s).interpolationProgress ≤
        (shipTickIter delta (n + 1) s).interpolationProgress) ∧
    (∀ n : ℕ, shipTimeToTarget s / delta ≤ (n : ℝ) →
        (shipTickIter delta n s).interpolationProgress = 1) ∧
    (∀ n : ℕ, (shipTickIter delta n s).interpolationProgress = 1 →
        (shipTickIter delta n s).isMoving = false ∧
        (shipTickIter delta n s).currentPosition = s.targetPosition) := by
  have hT : 0 < shipTimeToTarget s := shipTimeToTarget_pos s hdist hsp
  have hdT : 0 < delta / shipTimeToTarget s := div_pos hd hT
  have hinv := shipIter_inv s delta h1 h0 h2 hd hdist hsp
  refine ⟨fun n => (hinv n).1, ?_, ?_, fun n hp => ⟨?_, (hinv n).2.2.1 hp⟩⟩
  · intro n
    rw [(hinv n).1, (hinv (n + 1)).1]
    apply min_le_min le_rfl
    have hle : (n : ℝ) * (delta / shipTimeToTarget s) ≤
        ((n + 1 : ℕ) : ℝ) * (delta / shipTimeToTarget s) := by
      push_cast
      nlinarith
    linarith
  · intro n hn
    rw [(hinv n).1]
    apply min_eq_left
    have hmul : (shipTimeToTarget s / delta) * (delta / shipTimeToTarget s) ≤
        (n : ℝ) * (delta / shipTimeToTarget s) :=
      mul_le_mul_of_nonneg_right hn (le_of_lt hdT)
    have hone : (shipTimeToTarget s / delta) * (delta / shipTimeToTarget s) = 1 := by
      field_simp
    linarith
  · have hiff := (hinv n).2.1
    rw [hp] at hiff
    refine Bool.eq_false_iff.mpr (fun hmv => ?_)
    exact absurd (hiff.mp hmv) (lt_irrefl 1)

/-- C6 witness: the interpolation theorem applied to a concrete vessel with
speed 0 (chord 5, epsilon divisor, timeToTarget 5000) at dt 2500. -/
theorem claim_C6_witness :
    ((∀ n : ℕ, (shipTickIter 2500 n ⟨"C", ⟨0, 0, 0⟩, ⟨3, 4, 0⟩, ⟨0, 0, 0⟩,
        ⟨0, 0, 0, 1⟩, 0, 0, 0, 0, true, [], 0, 0⟩).interpolationProgress =
        min 1 (0 + n * (2500 / shipTimeToTarget ⟨"C", ⟨0, 0, 0⟩, ⟨3, 4, 0⟩,
          ⟨0, 0, 0⟩, ⟨0, 0, 0, 1⟩, 0, 0, 0, 0, true, [], 0, 0⟩))) ∧
    (∀ n : ℕ, (shipTickIter 2500 n ⟨"C", ⟨0, 0, 0⟩, ⟨3, 4, 0⟩, ⟨0, 0, 0⟩,
        ⟨0, 0, 0, 1⟩, 0, 0, 0, 0, true, [], 0, 0⟩).interpolationProgress ≤
        (shipTickIter 2500 (n + 1) ⟨"C", ⟨0, 0, 0⟩, ⟨3, 4, 0⟩, ⟨0, 0, 0⟩,
          ⟨0, 0, 0, 1⟩, 0, 0, 0, 0, true, [], 0, 0⟩).interpolationProgress) ∧
    (∀ n : ℕ, shipTimeToTarget ⟨"C", ⟨0, 0, 0⟩, ⟨3, 4, 0⟩, ⟨0, 0, 0⟩,
        ⟨0, 0, 0, 1⟩, 0, 0, 0, 0, true, [], 0, 0⟩ / 2500 ≤ (n : ℝ) →
        (shipTickIter 2500 n ⟨"C", ⟨0, 0, 0⟩, ⟨3, 4, 0⟩, ⟨0, 0, 0⟩,
          ⟨0, 0, 0, 1⟩, 0, 0, 0, 0, true, [], 0, 0⟩).interpolationProgress = 1) ∧
    (∀ n : ℕ, (shipTickIter 2500 n ⟨"C", ⟨0, 0, 0⟩, ⟨3, 4, 0⟩, ⟨0, 0, 0⟩,
        ⟨0, 0, 0, 1⟩, 0, 0, 0, 0, true, [], 0, 0⟩).interpolationProgress = 1 →
        (shipTickIter 2500 n ⟨"C", ⟨0, 0, 0⟩, ⟨3, 4, 0⟩, ⟨0, 0, 0⟩,
          ⟨0, 0, 0, 1⟩, 0, 0, 0, 0, true, [], 0, 0⟩).isMoving = false ∧
        (shipTickIter 2500 n ⟨"C", ⟨0, 0, 0⟩, ⟨3, 4, 0⟩, ⟨0, 0, 0⟩,
          ⟨0, 0, 0, 1⟩, 0, 0, 0, 0, true, [], 0, 0⟩).currentPosition = ⟨3, 4, 0⟩)) :=
  claim_C6 ⟨"C", ⟨0, 0, 0⟩, ⟨3, 4, 0⟩, ⟨0, 0, 0⟩, ⟨0, 0, 0, 1⟩,
    0, 0, 0, 0, true, [], 0, 0⟩ 2500 rfl (by norm_num) (by norm_num) (by norm_num)
    (by show (0 : ℝ) < calculateDistance ⟨0, 0, 0⟩ ⟨3, 4, 0⟩
        rw [calcDist_0_340]; norm_num)
    (by norm_num)

theorem cexShip_isMoving : cexShip.isMoving = true := by
  show (applyReport (createShip cexReport0 0) cexReport1 1).isMoving = true
  apply (applyReport_isMoving (createShip cexReport0 0) cexReport1 1).mpr
  constructor
  · show (0 : ℝ) < (some (10 : ℝ)).getD 0
    norm_num
  · have hc : (createShip cexReport0 0).currentPosition = ⟨shipRadius, 0, 0⟩ :=
      proj_lat0_lon0 shipRadius
    have ht : latLonToVector3 cexReport1.lat cexReport1.lon shipRadius =
        ⟨-shipRadius, 0, 0⟩ :=
      proj_lat0_lon180 shipRadius
    rw [hc, ht]
    have hdd : calculateDistance (⟨shipRadius, 0, 0⟩ : Vec3) ⟨-shipRadius, 0, 0⟩ =
        2 * shipRadius := by
      simp only [calculateDistance, Vec3.distanceTo]
      exact sqrt_eval (by norm_num [shipRadius]) (by ring)
    rw [hdd]
    norm_num [shipRadius]

theorem cexRoute_interp_zero :
    interpolateAlongRoute cexRoute 0 shipRadius = ⟨0, shipRadius, 0⟩ := by
  have hproj : latLonToVector3 (wpAt cexRoute 0).latitude
      (wpAt cexRoute 0).longitude shipRadius = ⟨0, shipRadius, 0⟩ :=
    proj_lat90 0 shipRadius
  have hlen : (⟨0, shipRadius, 0⟩ : Vec3).length = shipRadius := by
    simp only [Vec3.length, Vec3.lengthSq]
    exact sqrt_eval (by norm_num [shipRadius]) (by ring)
  rw [interpolateAlongRoute_zero cexRoute shipRadius (by simp [cexRoute])
    (by norm_num [shipRadius])
    (by rw [hproj, normalize_of_length ⟨0, shipRadius, 0⟩ shipRadius hlen
          (by norm_num [shipRadius])]
        show numberEpsilon ≤ 1 + 0 / shipRadius
        norm_num [numberEpsilon]), hproj]

theorem shipTick_cexShip :
    (shipTick cexShip 0).currentPosition = ⟨0, shipRadius, 0⟩ := by
  have hprog : cexShip.interpolationProgress = 0 := rfl
  unfold shipTick
  rw [if_pos ⟨cexShip_isMoving, by rw [hprog]; norm_num⟩]
  simp only [if_pos (show 1 < cexShip.route.length by
    show 1 < cexRoute.length
    simp [cexRoute])]
  have hnp : min 1 (cexShip.interpolationProgress + 0 / shipTimeToTarget cexShip) =
      0 := by
    rw [hprog, zero_div, add_zero]
    norm_num
  rw [hnp]
  rw [tickOrientation_of_small _ (by
    show ¬ (0.01 : ℝ) < 0
    norm_num)]
  split_ifs with hc
  · norm_num at hc
  · show interpolateAlongRoute cexShip.route cexShip.routeProgress shipRadius = _
    show interpolateAlongRoute cexRoute 0 shipRadius = _
    exact cexRoute_interp_zero

/-- C7 counterexample: a reachable vessel state (created by a report, moved
by a second report, then assigned a two-waypoint route) is changed by a
tick with dt = 0: the tick recomputes currentPosition from routeProgress,
moving it from the projection of lat 0/lon 0 to the first route waypoint. -/
theorem claim_C7_counterexample :
    Reachable cexShip ∧ shipTick cexShip 0 ≠ cexShip := by
  constructor
  · exact Reachable.assignRoute cexRoute (by simp [cexRoute])
      (Reachable.report cexReport1 1 (Reachable.create cexReport0 0))
  · intro heq
    have hx : (shipTick cexShip 0).currentPosition = cexShip.currentPosition :=
      congrArg ShipMesh.currentPosition heq
    have hcur : cexShip.currentPosition = ⟨shipRadius, 0, 0⟩ :=
      proj_lat0_lon0 shipRadius
    rw [shipTick_cexShip, hcur] at hx
    have hxx : (0 : ℝ) = shipRadius := congrArg Vec3.x hx
    norm_num [shipRadius] at hxx

/-- C8 counterexample: at radius -1 the route interpolation at progress 0
returns the exact antipode (1, 0, 0) of the first waypoint's projection
(-1, 0, 0), so the boundary property does not hold for every radius. -/
theorem claim_C8_counterexample :
    interpolateAlongRoute [⟨0, 0⟩, ⟨0, 90⟩] 0 (-1) = ⟨1, 0, 0⟩ ∧
    latLonToVector3 (wpAt ([⟨0, 0⟩, ⟨0, 90⟩] : List Waypoint) 0).latitude
      (wpAt ([⟨0, 0⟩, ⟨0, 90⟩] : List Waypoint) 0).longitude (-1) = ⟨-1, 0, 0⟩ ∧
    (⟨1, 0, 0⟩ : Vec3) ≠ ⟨-1, 0, 0⟩ := by
  refine ⟨?_, proj_lat0_lon0 (-1), ?_⟩
  · unfold interpolateAlongRoute
    rw [if_neg (show ¬ ([(⟨0, 0⟩ : Waypoint), ⟨0, 90⟩] : List Waypoint).length < 2 by
      simp)]
    simp only [zero_mul, Int.floor_zero, Int.cast_zero, sub_zero]
    rw [if_neg (show ¬ ((([(⟨0, 0⟩ : Waypoint), ⟨0, 90⟩] : List Waypoint).length -
      1 : ℕ) : ℤ) ≤ 0 by simp)]
    rw [slerpQuaternions_zero]
    have hproj : latLonToVector3 (wpAt ([⟨0, 0⟩, ⟨0, 90⟩] : List Waypoint) 0).latitude
        (wpAt ([⟨0, 0⟩, ⟨0, 90⟩] : List Waypoint) 0).longitude (-1) = ⟨-1, 0, 0⟩ :=
      proj_lat0_lon0 (-1)
    rw [hproj]
    have hlen : (⟨-1, 0, 0⟩ : Vec3).length = 1 := by
      simp only [Vec3.length, Vec3.lengthSq]
      exact sqrt_eval (by norm_num) (by norm_num)
    rw [normalize_of_length ⟨-1, 0, 0⟩ 1 hlen one_pos]
    rw [applyQuat_setFromUnitVectors ⟨-1 / 1, 0 / 1, 0 / 1⟩ (-1)
      (by simp only [Vec3.lengthSq]; norm_num)
      (by show numberEpsilon ≤ 1 + 0 / 1; norm_num [numberEpsilon])]
    ext <;> (simp only []; norm_num)
  · intro h
    have := congrArg Vec3.x h
    norm_num at this

/-- C8 amended: for every route with at least 2 waypoints and every radius
> 0 whose first-waypoint direction is not within Number.EPSILON of antipodal
to the reference axis (0, 0, 1), interpolateAlongRoute at progress 0 equals
the first waypoint's projection exactly (the slerp of the axis-to-endpoint
quaternions applied to (0, 0, radius) reproduces it), and at progress 1 it
equals the last waypoint's projection exactly. -/
theorem claim_C8_amended (route : List Waypoint) (radius : ℝ)
    (h2 : 2 ≤ route.length) (hr : 0 < radius)
    (hz : numberEpsilon ≤ 1 +
      ((latLonToVector3 (wpAt route 0).latitude (wpAt route 0).longitude
        radius).normalize).z) :
    interpolateAlongRoute route 0 radius =
      latLonToVector3 (wpAt route 0).latitude (wpAt route 0).longitude radius ∧
    interpolateAlongRoute route 1 radius =
      latLonToVector3 (wpAt route ((route.length : ℤ) - 1)).latitude
        (wpAt route ((route.length : ℤ) - 1)).longitude radius :=
  ⟨interpolateAlongRoute_zero route radius h2 hr hz,
   interpolateAlongRoute_one route radius h2⟩

/-- C8 witness: the amended boundary theorem applied to a concrete
two-waypoint route at radius 1. -/
theorem claim_C8_witness :
    interpolateAlongRoute [⟨0, 0⟩, ⟨0, 90⟩] 0 1 =
      latLonToVector3 (wpAt ([⟨0, 0⟩, ⟨0, 90⟩] : List Waypoint) 0).latitude
        (wpAt ([⟨0, 0⟩, ⟨0, 90⟩] : List Waypoint) 0).longitude 1 ∧
    interpolateAlongRoute [⟨0, 0⟩, ⟨0, 90⟩] 1 1 =
      latLonToVector3
        (wpAt ([⟨0, 0⟩, ⟨0, 90⟩] : List Waypoint)
          ((([⟨0, 0⟩, ⟨0, 90⟩] : List Waypoint).length : ℤ) - 1)).latitude
        (wpAt ([⟨0, 0⟩, ⟨0, 90⟩] : List Waypoint)
          ((([⟨0, 0⟩, ⟨0, 90⟩] : List Waypoint).length : ℤ) - 1)).longitude 1 :=
  claim_C8_amended [⟨0, 0⟩, ⟨0, 90⟩] 1 (by simp) one_pos
    (by rw [show latLonToVector3
          (wpAt ([⟨0, 0⟩, ⟨0, 90⟩] : List Waypoint) 0).latitude
          (wpAt ([⟨0, 0⟩, ⟨0, 90⟩] : List Waypoint) 0).longitude 1 = ⟨1, 0, 0⟩ from
          proj_lat0_lon0 1,
        normalize_of_length ⟨1, 0, 0⟩ 1
          (by simp only [Vec3.length, Vec3.lengthSq]
              exact sqrt_eval (by norm_num) (by norm_num)) one_pos]
        show numberEpsilon ≤ 1 + 0 / 1
        norm_num [numberEpsilon])

theorem length_smul (v : Vec3) (c : ℝ) :
    (v.multiplyScalar c).length = |c| * v.length := by
  simp only [Vec3.multiplyScalar, Vec3.length, Vec3.lengthSq]
  rw [show v.x * c * (v.x * c) + v.y * c * (v.y * c) + v.z * c * (v.z * c) =
    c ^ 2 * (v.x * v.x + v.y * v.y + v.z * v.z) by ring]
  rw [Real.sqrt_mul (sq_nonneg c), Real.sqrt_sq_eq_abs]

theorem lengthSq_eq_zero_iff (b : Vec3) : b.lengthSq = 0 ↔ b = ⟨0, 0, 0⟩ := by
  constructor
  · intro h
    simp only [Vec3.lengthSq] at h
    have hx : b.x * b.x = 0 := le_antisymm
      (by nlinarith [mul_self_nonneg b.y, mul_self_nonneg b.z]) (mul_self_nonneg b.x)
    have hy : b.y * b.y = 0 := le_antisymm
      (by nlinarith [mul_self_nonneg b.x, mul_self_nonneg b.z]) (mul_self_nonneg b.y)
    have hz : b.z * b.z = 0 := le_antisymm
      (by nlinarith [mul_self_nonneg b.x, mul_self_nonneg b.y]) (mul_self_nonneg b.z)
    ext
    · exact mul_self_eq_zero.mp hx
    · exact mul_self_eq_zero.mp hy
    · exact mul_self_eq_zero.mp hz
  · intro h
    rw [h]
    simp only [Vec3.lengthSq]
    ring

theorem length_normalize (b : Vec3) (hb : b ≠ ⟨0, 0, 0⟩) :
    (b.normalize).length = 1 := by
  have hsq : b.lengthSq ≠ 0 := fun h => hb ((lengthSq_eq_zero_iff b).mp h)
  have hlpos : 0 < b.length :=
    Real.sqrt_pos.mpr (lt_of_le_of_ne (lengthSq_nonneg b) (Ne.symm hsq))
  unfold Vec3.normalize
  rw [length_smul, jsOr, if_neg (ne_of_gt hlpos),
    abs_of_pos (by positivity : (0 : ℝ) < 1 / b.length)]
  field_simp

theorem length_gridVertex (v1 v2 v3 : Vec3) (radius : ℝ) (n i j : ℕ)
    (hne : baryBlend v1 v2 v3 n i j ≠ ⟨0, 0, 0⟩) (hr : 0 ≤ radius) :
    (gridVertex v1 v2 v3 radius n i j).length = radius := by
  unfold gridVertex
  rw [length_smul, length_normalize _ hne, mul_one, abs_of_nonneg hr]

theorem mem_tessVertices {v1 v2 v3 : Vec3} {radius : ℝ} {n : ℕ} {p : Vec3}
    (hp : p ∈ tessVertices v1 v2 v3 radius n) :
    ∃ i j : ℕ, i + j ≤ n ∧ p = gridVertex v1 v2 v3 radius n i j := by
  unfold tessVertices at hp
  rw [List.mem_flatMap] at hp
  obtain ⟨i, hi, hp⟩ := hp
  rw [List.mem_range] at hi
  rw [List.mem_flatMap] at hp
  obtain ⟨j, hj, hp⟩ := hp
  rw [List.mem_range] at hj
  rw [List.mem_append] at hp
  rcases hp with hp | hp
  · simp only [List.mem_cons, List.not_mem_nil, or_false] at hp
    rcases hp with rfl | rfl | rfl
    · exact ⟨i, j, by omega, rfl⟩
    · exact ⟨i + 1, j, by omega, rfl⟩
    · exact ⟨i, j + 1, by omega, rfl⟩
  · by_cases hj2 : j < n - i - 1
    · rw [if_pos hj2] at hp
      simp only [List.mem_cons, List.not_mem_nil, or_false] at hp
      rcases hp with rfl | rfl | rfl
      · exact ⟨i + 1, j, by omega, rfl⟩
      · exact ⟨i + 1, j + 1, by omega, rfl⟩
      · exact ⟨i, j + 1, by omega, rfl⟩
    · rw [if_neg hj2] at hp
      exact absurd hp (List.not_mem_nil p)

/-- C4 counterexample: for the triangle with the antipodal sphere vertices
(1,0,0) and (-1,0,0) at radius 1 and subdivision 2, the midpoint grid
vertex has barycentric blend zero, is emitted as the zero vector, and has
norm 0, not radius 1. -/
theorem claim_C4_counterexample :
    (⟨0, 0, 0⟩ : Vec3) ∈ tessVertices ⟨1, 0, 0⟩ ⟨-1, 0, 0⟩ ⟨0, 1, 0⟩ 1 2 ∧
    Vec3.length ⟨0, 0, 0⟩ ≠ 1 := by
  have hb : baryBlend ⟨1, 0, 0⟩ ⟨-1, 0, 0⟩ ⟨0, 1, 0⟩ 2 1 0 = ⟨0, 0, 0⟩ := by
    unfold baryBlend
    ext <;> (simp only []; norm_num)
  have hg : gridVertex ⟨1, 0, 0⟩ ⟨-1, 0, 0⟩ ⟨0, 1, 0⟩ 1 2 1 0 = ⟨0, 0, 0⟩ := by
    unfold gridVertex
    rw [hb]
    have hnz : (⟨0, 0, 0⟩ : Vec3).normalize = ⟨0, 0, 0⟩ := by
      unfold Vec3.normalize
      ext <;> (simp only [Vec3.multiplyScalar]; ring)
    rw [hnz]
    ext <;> (simp only [Vec3.multiplyScalar]; ring)
  constructor
  · unfold tessVertices
    apply List.mem_flatMap.mpr
    refine ⟨0, by simp, ?_⟩
    apply List.mem_flatMap.mpr
    refine ⟨0, by simp, ?_⟩
    apply List.mem_append_left
    simp only [List.mem_cons]
    right; left
    exact hg.symm
  · simp only [Vec3.length, Vec3.lengthSq]
    rw [show (0 : ℝ) * 0 + 0 * 0 + 0 * 0 = 0 by ring, Real.sqrt_zero]
    norm_num

/-- C4 amended: for every subdivision level n >= 1, every radius >= 0, and
every input triangle whose sampled barycentric blends are all non-zero,
every vertex emitted by the tessellation has Euclidean norm exactly equal
to the radius (each blend is re-normalized and rescaled to radius); for a
triangle with a zero blend (antipodal sphere vertices) the re-normalization
leaves the zero vector, whose norm is 0. -/
theorem claim_C4_amended (v1 v2 v3 : Vec3) (radius : ℝ) (n : ℕ) (hn : 1 ≤ n)
    (hr : 0 ≤ radius)
    (hb : ∀ i j : ℕ, i + j ≤ n → baryBlend v1 v2 v3 n i j ≠ ⟨0, 0, 0⟩) :
    ∀ p ∈ tessVertices v1 v2 v3 radius n, p.length = radius := by
  intro p hp
  obtain ⟨i, j, hij, rfl⟩ := mem_tessVertices hp
  exact length_gridVertex v1 v2 v3 radius n i j (hb i j hij) hr

/-- C4 witness: the amended tessellation theorem applied to the standard
octant triangle at radius 1 with one subdivision, at the first emitted
vertex. -/
theorem claim_C4_witness :
    (gridVertex ⟨1, 0, 0⟩ ⟨0, 1, 0⟩ ⟨0, 0, 1⟩ 1 1 0 0).length = 1 :=
  claim_C4_amended ⟨1, 0, 0⟩ ⟨0, 1, 0⟩ ⟨0, 0, 1⟩ 1 1 (by norm_num) (by norm_num)
    (by intro i j hij
        have hi : i ≤ 1 := by omega
        have hj : j ≤ 1 := by omega
        interval_cases i <;> interval_cases j <;>
          (try omega) <;>
          (intro h
           simp only [baryBlend, Vec3.mk.injEq] at h
           norm_num at h))
    (gridVertex ⟨1, 0, 0⟩ ⟨0, 1, 0⟩ ⟨0, 0, 1⟩ 1 1 0 0)
    (by unfold tessVertices
        apply List.mem_flatMap.mpr
        refine ⟨0, by simp, ?_⟩
        apply List.mem_flatMap.mpr
        refine ⟨0, by simp, ?_⟩
        exact List.mem_append_left _ (List.mem_cons_self _ _))

end
